import Mathlib

/-!
# Verification of the DownStoreMonitor core (`app/` package)

Shallow embedding of the polling/aggregation core of DownStoreMonitor:

* `app/utils.py` — `ping_with_stats` (probe aggregation and output parsing);
* `app/repository.py` — `Repo` (stores / status / last-change state);
* `app/store_ip_list.py` — `get_ip_for_store` (fallback address lookup);
* `app/monitor.py` — `StoreMonitor._run_cycle` (one monitoring cycle);
* `app/config.py` — the constants consumed by the core.

Python dicts are modelled as insertion-ordered association lists, Python
strings as Lean `String`s, subprocess/callback failures as explicit outcome
parameters, and the per-cycle side effects (sink events, repository writes,
refresh signals, notifications) as an explicit trace of actions.
-/

namespace DownStoreMonitor

/-! ## Python dict semantics

A Python `dict` preserves insertion order: assigning to an existing key keeps
its position, a new key is appended at the end.  `dictGet` is `d.get(k)`,
`dictInsert` is `d[k] = v`, `dictErase` is `d.pop(k, None)`. -/

/-- `d.get(k)`: value of the first (unique) entry with key `k`. -/
def dictGet {κ α : Type} [DecidableEq κ] (l : List (κ × α)) (k : κ) : Option α :=
  match l with
  | [] => none
  | (k', v) :: rest => if k' = k then some v else dictGet rest k

/-- `d[k] = v`: update in place if `k` is present (keeping its position),
otherwise append a new entry at the end. -/
def dictInsert {κ α : Type} [DecidableEq κ] (l : List (κ × α)) (k : κ) (v : α) :
    List (κ × α) :=
  match l with
  | [] => [(k, v)]
  | (k', v') :: rest =>
      if k' = k then (k', v) :: rest else (k', v') :: dictInsert rest k v

/-- `d.pop(k, None)`: remove the entry with key `k` if present. -/
def dictErase {κ α : Type} [DecidableEq κ] (l : List (κ × α)) (k : κ) :
    List (κ × α) :=
  match l with
  | [] => []
  | (k', v') :: rest =>
      if k' = k then rest else (k', v') :: dictErase rest k

/-! ## Python string helpers used by the core -/

/-- Python's `str` whitespace test, restricted to the ASCII whitespace
characters (space, tab, newline, carriage return, vertical tab, form feed);
every string this program strips is ASCII. -/
def pyIsSpace (c : Char) : Bool :=
  c = ' ' || c = '\t' || c = '\n' || c = '\r' || c = '\x0b' || c = '\x0c'

/-- `str.strip()` on a character list: drop leading whitespace, then drop
trailing whitespace (implemented by reversing, dropping, reversing back). -/
def stripChars (l : List Char) : List Char :=
  ((l.dropWhile pyIsSpace).reverse.dropWhile pyIsSpace).reverse

/-- Python `str.strip()` as used in `monitor.py` and `store_ip_list.py`. -/
def pyStrip (s : String) : String :=
  ⟨stripChars s.data⟩

/-- `str.zfill(width)` on a character list: left-pad with `'0'` up to `width`
characters, keeping a leading `'+'`/`'-'` sign in front of the padding; a
string already at least `width` long is returned unchanged. -/
def zfillChars (width : Nat) (l : List Char) : List Char :=
  if width ≤ l.length then l
  else
    let pad := List.replicate (width - l.length) '0'
    match l with
    | [] => pad
    | c :: rest =>
        if c = '+' || c = '-' then c :: (pad ++ rest) else pad ++ (c :: rest)

/-- Python `str.zfill(width)` as used in `store_ip_list.py`. -/
def zfill (width : Nat) (s : String) : String :=
  ⟨zfillChars width s.data⟩

/-! ## Parsing of the ping output (`utils.ping_with_stats`)

`ping_with_stats` extracts `Received = N` via `re.search(r"Received\s*=\s*(\d+)")`
and `Average = Xms` via `re.search(r"Average\s*=\s*(\d+)ms")`.  Both patterns
are deterministic: the character classes of adjacent pieces (`\s`, `=`, `\d`,
the literal letters) are pairwise disjoint, so greedy matching without
backtracking computes exactly the leftmost `re.search` match. -/

/-- Match the literal `key` at the head of `l`, returning the remainder. -/
def dropLit (key l : List Char) : Option (List Char) :=
  match key, l with
  | [], rest => some rest
  | _ :: _, [] => none
  | k :: ks, c :: cs => if c = k then dropLit ks cs else none

/-- Greedy `(\d+)` at the head of `l`: the parsed number and the remainder,
or `none` when no digit leads. -/
def parseDigits (l : List Char) : Option (Nat × List Char) :=
  let ds := l.takeWhile Char.isDigit
  if ds.isEmpty then none
  else some (ds.foldl (fun n c => n * 10 + (c.toNat - '0'.toNat)) 0,
             l.dropWhile Char.isDigit)

/-- Match `key` `\s*` `=` `\s*` `(\d+)` at the head of `l`, returning the digit
group and the remainder after it. -/
def matchKeyEqNum (key l : List Char) : Option (Nat × List Char) :=
  match dropLit key l with
  | none => none
  | some r1 =>
      match r1.dropWhile pyIsSpace with
      | '=' :: r3 => parseDigits (r3.dropWhile pyIsSpace)
      | _ => none

/-- `re.search` of `key` `\s*=\s*` `(\d+)` followed by the literal `suffix`:
scan positions left to right and return the first full match's digit group. -/
def searchKeyEqNum (key suffix l : List Char) : Option Nat :=
  match l with
  | [] => none
  | _ :: rest =>
      match matchKeyEqNum key l with
      | some (n, after) =>
          if (dropLit suffix after).isSome then some n
          else searchKeyEqNum key suffix rest
      | none => searchKeyEqNum key suffix rest

/-- `re.search(r"Received\s*=\s*(\d+)", stdout)`, as a parsed number. -/
def searchReceived (l : List Char) : Option Nat :=
  searchKeyEqNum "Received".data [] l

/-- `re.search(r"Average\s*=\s*(\d+)ms", stdout)`, as a parsed number. -/
def searchAverageMs (l : List Char) : Option Nat :=
  searchKeyEqNum "Average".data "ms".data l

/-! ## `config.py` constants consumed by the core -/

/-- `config.PING_COUNT`: echo requests per cycle. -/
def PING_COUNT : Nat := 4

/-- `config.PING_QUORUM`: successes required to consider a store ONLINE. -/
def PING_QUORUM : Nat := 1

/-- `config.PING_INTERVAL_SEC`. -/
def PING_INTERVAL_SEC : Nat := 30

/-- `monitor.PING_EXECUTOR_MAX_WORKERS`: cap on concurrent ping workers. -/
def PING_EXECUTOR_MAX_WORKERS : Nat := 50

/-! ## `utils.ping_with_stats` -/

/-- Outcome of the `subprocess.run(["ping", "-n", str(count), ip], ...)` call
inside `utils.ping_with_stats`: either one of the caught exceptions was raised
(`TimeoutExpired`, `OSError`, `ValueError`, or any other `Exception`), or the
process completed with the given stdout (`none` models `result.stdout` being
`None`, which the code replaces by `""`). -/
inductive SubprocessOutcome where
  | raised : SubprocessOutcome
  | completed (stdout : Option String) : SubprocessOutcome
deriving DecidableEq

/-- `utils.ping_with_stats`, parametrised by the quorum constant and by the
subprocess outcome; returns `(online, avg_latency_ms, success_count)` exactly
as the Python function computes them from its `stdout`. -/
def ping_with_stats_core (quorum : Nat) (out : SubprocessOutcome) :
    Bool × Option Nat × Nat :=
  match out with
  | .raised => (false, none, 0)
  | .completed stdoutOpt =>
      let stdout := (stdoutOpt.getD "").data
      let success_count := (searchReceived stdout).getD 0
      let online : Bool := decide (success_count ≥ quorum)
      let avg_latency_ms : Option Nat :=
        if 0 < success_count then searchAverageMs stdout else none
      (online, avg_latency_ms, success_count)

/-- `utils.ping_with_stats` at the configured quorum `PING_QUORUM`. -/
def ping_with_stats (out : SubprocessOutcome) : Bool × Option Nat × Nat :=
  ping_with_stats_core PING_QUORUM out

/-! ## `models.Store` and `repository.Repo` -/

/-- `models.Store`: one monitored store (a mutable Python dataclass; its
in-place mutability is modelled separately by the heap model below). -/
structure Store where
  number : String
  ip : String
  isp : String := ""
  helpdesk_ticket : String := ""
deriving DecidableEq

/-- `repository.Repo`: the three internal dicts (`_stores`, `_status`,
`_last_change`).  Every Python method runs under `self._lock`, so the
value-level semantics of each operation is an atomic function on this state. -/
structure Repo where
  stores : List (String × Store)
  status : List (String × Bool)
  last_change : List (String × String)
deriving DecidableEq

/-- `Repo.__init__`. -/
def Repo.empty : Repo :=
  { stores := [], status := [], last_change := [] }

/-- `Repo.upsert(store)`. -/
def Repo.upsert (r : Repo) (store : Store) : Repo :=
  { r with stores := dictInsert r.stores store.number store }

/-- `Repo.get(number)`. -/
def Repo.get (r : Repo) (number : String) : Option Store :=
  dictGet r.stores number

/-- `Repo.remove(number)`. -/
def Repo.remove (r : Repo) (number : String) : Repo :=
  { stores := dictErase r.stores number,
    status := dictErase r.status number,
    last_change := dictErase r.last_change number }

/-- `Repo.clear_all()`. -/
def Repo.clear_all (_r : Repo) : Repo :=
  Repo.empty

/-- `Repo.set_status(number, online)`: read the previous status, always store
the new value, and stamp `_last_change[number]` with the current time exactly
when a previous status exists and differs.  `now` is the value of
`datetime.now().strftime("%Y-%m-%d %H:%M:%S")` at the call. -/
def Repo.set_status (r : Repo) (number : String) (online : Bool) (now : String) :
    Repo :=
  let prev := dictGet r.status number
  let r' := { r with status := dictInsert r.status number online }
  match prev with
  | some p =>
      if p ≠ online then
        { r' with last_change := dictInsert r'.last_change number now }
      else r'
  | none => r'

/-- `Repo.snapshot()`: the current triple of dicts.  At the value level the
returned triple is an independent copy; the reference-level (shallow-copy)
behaviour of `dict(self._stores)` is modelled separately by `PyHeap` below. -/
def Repo.snapshot (r : Repo) :
    List (String × Store) × List (String × Bool) × List (String × String) :=
  (r.stores, r.status, r.last_change)

/-! ## `store_ip_list.get_ip_for_store`

The module-level `_store_ip_map` is populated once at startup from
`Store_IP_List.csv` (keys already zero-filled to 4 digits by
`load_store_ip_list`); here the loaded map is an explicit parameter. -/

/-- `store_ip_list.get_ip_for_store(number)`: `None` for an empty number,
otherwise look up `number.strip().zfill(4)` in the loaded map. -/
def get_ip_for_store (ipMap : List (String × String)) (number : String) :
    Option String :=
  if number = "" then none
  else dictGet ipMap (zfill 4 (pyStrip number))

/-! ## `monitor.StoreMonitor._run_cycle`

One cycle (monitor.py lines 86-143): snapshot the repository, build the
ordered list `(number, store, effective_ip, display_ip)`, submit one
`ping_with_stats` task per store with a non-empty effective IP, gather the
results with `return_exceptions=True`, then process every ordered entry:
emit the `on_ping` sink event, and update the repository / fire callbacks
according to the snapshot status.

The model makes the external interactions explicit:

* `probeResult ip` is the gathered future for a dispatched IP — `some v` when
  `ping_with_stats` returned the triple `v`, `none` when the future resolved
  to a `BaseException` (treated by the code as `(False, None, 0)`);
* `onPingRaises` / `onAnyChangeRaises` say whether the `on_ping` and
  `on_any_change` callbacks raise for a given store number.  `on_ping` is
  wrapped in its own inner `try/except: pass`; everything else in the loop
  body is wrapped in the outer `try/except: pass`, so a raising
  `on_any_change` only skips the `notify` call that would follow it.

Side effects are recorded as a trace of `Action`s, in invocation order. -/

/-- One observable action of a cycle: an `on_ping` sink event, a
`repo.set_status` write, an `on_any_change` refresh signal, or a `notify`
OS-notification call.  Each action is tagged with the store number being
processed when it happens. -/
inductive Action where
  | sink (number displayIp : String) (online : Bool) (avg : Option Nat) (succ : Nat)
  | setStatus (number : String) (online : Bool)
  | refresh (number : String)
  | notifyCall (number : String) (online : Bool)
deriving DecidableEq

/-- The store number an action is tagged with. -/
def Action.num : Action → String
  | .sink n _ _ _ _ => n
  | .setStatus n _ => n
  | .refresh n => n
  | .notifyCall n _ => n

/-- Is this action an `on_ping` sink event? -/
def Action.isSink : Action → Bool
  | .sink _ _ _ _ _ => true
  | _ => false

/-- The number of a sink event, `none` for other actions. -/
def sinkNumber : Action → Option String
  | .sink n _ _ _ _ => some n
  | _ => none

/-- The number of a `set_status` write, `none` for other actions. -/
def setStatusNumber : Action → Option String
  | .setStatus n _ => some n
  | _ => none

/-- Count of `notify` calls in a trace. -/
def countNotify (t : List Action) : Nat :=
  (t.filter fun a => match a with | .notifyCall _ _ => true | _ => false).length

/-- Count of `on_any_change` refresh calls in a trace. -/
def countRefresh (t : List Action) : Nat :=
  (t.filter fun a => match a with | .refresh _ => true | _ => false).length

/-- The ordered tuple `(number, store, effective_ip, display_ip)` built at the
top of `_run_cycle` (lines 90-94). -/
structure EndpointEntry where
  number : String
  store : Store
  effective_ip : String
  display_ip : String
deriving DecidableEq

/-- `effective_ip = (store.ip or "").strip() or get_ip_for_store(store.number)`
followed by the `effective_ip or ""` coercion of line 94: the stripped
explicit address when non-empty, else the lookup fallback, else `""`
(standing for Python's `None`/`""`, both falsy). -/
def effectiveIp (ipMap : List (String × String)) (store : Store) : String :=
  let stripped := pyStrip store.ip
  if stripped ≠ "" then stripped
  else
    match get_ip_for_store ipMap store.number with
    | some ip => ip
    | none => ""

/-- Lines 90-94: one `EndpointEntry` per snapshot store, in snapshot
(insertion) order; `display_ip` is `effective_ip if effective_ip else "—"`. -/
def orderedEntries (ipMap : List (String × String))
    (stores : List (String × Store)) : List EndpointEntry :=
  stores.map fun p =>
    let eip := effectiveIp ipMap p.2
    { number := p.1, store := p.2, effective_ip := eip,
      display_ip := if eip = "" then "—" else eip }

/-- Lines 97-106: the store numbers for which a ping task is actually
submitted to the executor (exactly those with a non-empty `effective_ip`). -/
def dispatchedNumbers (ipMap : List (String × String))
    (stores : List (String × Store)) : List String :=
  (orderedEntries ipMap stores).filterMap fun e =>
    if e.effective_ip = "" then none else some e.number

/-- The cycle's external collaborators (gathered futures and UI callbacks). -/
structure CycleCallbacks where
  probeResult : String → Option (Bool × Option Nat × Nat)
  onPingRaises : String → Bool
  onAnyChangeRaises : String → Bool

/-- Lines 117-126: the verdict used for an ordered entry — the gathered result
for a dispatched IP, with a future that resolved to an exception or an entry
that was never dispatched both yielding `(False, None, 0)`. -/
def verdictFor (cb : CycleCallbacks) (effective_ip : String) :
    Bool × Option Nat × Nat :=
  if effective_ip = "" then (false, none, 0)
  else
    match cb.probeResult effective_ip with
    | some res => res
    | none => (false, none, 0)

/-- The status-driven actions of lines 134-141: the `set_status` write, the
refresh signal, and (on a flip, unless the refresh callback raised into the
outer handler) the notification. -/
def statusActions (cb : CycleCallbacks) (snapStatus : List (String × Bool))
    (e : EndpointEntry) (online : Bool) : List Action :=
  match dictGet snapStatus e.number with
  | none => [Action.setStatus e.number online, Action.refresh e.number]
  | some prev =>
      if prev ≠ online then
        Action.setStatus e.number online :: Action.refresh e.number ::
          (if cb.onAnyChangeRaises e.number then []
           else [Action.notifyCall e.number online])
      else []

/-- The actions recorded while processing one ordered entry (lines 128-143):
the unconditional `on_ping` sink event first (its own exceptions are swallowed
by the inner handler), then the status-driven actions. -/
def entryActions (cb : CycleCallbacks) (snapStatus : List (String × Bool))
    (e : EndpointEntry) : List Action :=
  let v := verdictFor cb e.effective_ip
  Action.sink e.number e.display_ip v.1 v.2.1 v.2.2 ::
    statusActions cb snapStatus e v.1

/-- The repository update performed while processing one ordered entry
(lines 134-141): `set_status` exactly when the snapshot has no previous
status or the previous status differs from the verdict. -/
def applyEntry (cb : CycleCallbacks) (snapStatus : List (String × Bool))
    (now : String) (repo : Repo) (e : EndpointEntry) : Repo :=
  let v := verdictFor cb e.effective_ip
  match dictGet snapStatus e.number with
  | none => repo.set_status e.number v.1 now
  | some prev =>
      if prev ≠ v.1 then repo.set_status e.number v.1 now else repo

/-- One iteration of the processing loop: the updated repository and the
actions it recorded. -/
def processEntry (cb : CycleCallbacks) (snapStatus : List (String × Bool))
    (now : String) (repo : Repo) (e : EndpointEntry) : Repo × List Action :=
  (applyEntry cb snapStatus now repo e, entryActions cb snapStatus e)

/-- `StoreMonitor._run_cycle`: snapshot, build the ordered entries, and fold
the processing loop over them in snapshot order, accumulating the trace.
`now` is the wall-clock string used for any `last_change` stamp of this
cycle.  The function is deterministic by construction: the result depends
only on the snapshot, the gathered probe results, and the callback
behaviours. -/
def runCycle (cb : CycleCallbacks) (ipMap : List (String × String))
    (now : String) (repo : Repo) : Repo × List Action :=
  let snap := repo.snapshot
  let entries := orderedEntries ipMap snap.1
  entries.foldl
    (fun acc e =>
      let step := processEntry cb snap.2.1 now acc.1 e
      (step.1, acc.2 ++ step.2))
    (repo, [])

/-- The same callbacks with both UI callbacks never raising. -/
def CycleCallbacks.noRaise (cb : CycleCallbacks) : CycleCallbacks :=
  { cb with onPingRaises := fun _ => false, onAnyChangeRaises := fun _ => false }

/-! ## Reference-level model of `Repo.snapshot` (`dict(self._stores)`)

`Repo.snapshot` returns `dict(self._stores), dict(self._status),
dict(self._last_change)` (repository.py line 107): each `dict(...)` builds a
fresh dict object holding the same key → value-reference entries.  The values
of `_status` and `_last_change` are `bool`s and `str`s — immutable Python
objects — so for those two dicts the shallow copy is as good as a deep one.
The values of `_stores`, however, are `Store` dataclass instances
(models.py), which are mutable (`@dataclass` without `frozen=True`), and the
copy shares them with the live repository.

`PyHeap` models exactly this: dict objects and `Store` objects live at
numeric addresses; a stores-dict maps keys to `Store` addresses. -/

/-- Heap of Python objects relevant to the stores dict: dict objects (each a
key → store-address table) and mutable `Store` objects. -/
structure PyHeap where
  dicts : List (Nat × List (String × Nat))
  stores : List (Nat × Store)
deriving DecidableEq

/-- `dict(src)` allocated at address `fresh`: a new dict object with the same
entries (same keys, same store references). -/
def PyHeap.dictCopy (h : PyHeap) (src fresh : Nat) : PyHeap :=
  match dictGet h.dicts src with
  | some entries => { h with dicts := dictInsert h.dicts fresh entries }
  | none => h

/-- `d[k] = ref` on the dict object at address `d`. -/
def PyHeap.dictSetItem (h : PyHeap) (d : Nat) (k : String) (ref : Nat) : PyHeap :=
  match dictGet h.dicts d with
  | some entries => { h with dicts := dictInsert h.dicts d (dictInsert entries k ref) }
  | none => h

/-- In-place field assignment `store.ip = ip` on the `Store` object at
address `addr` (possible because `Store` is a mutable dataclass). -/
def PyHeap.storeSetIp (h : PyHeap) (addr : Nat) (ip : String) : PyHeap :=
  match dictGet h.stores addr with
  | some s => { h with stores := dictInsert h.stores addr { s with ip := ip } }
  | none => h

/-- Read `d[k]` on the dict at address `d` and dereference the resulting
`Store` (what any consumer of the dict observes for key `k`). -/
def PyHeap.readStore (h : PyHeap) (d : Nat) (k : String) : Option Store :=
  (dictGet h.dicts d).bind fun entries =>
    (dictGet entries k).bind fun ref => dictGet h.stores ref

/-! ## Concrete inputs used by the witness theorems -/

/-- Concrete inputs for the C3 witness: a probe that returns an online
verdict, callbacks that never raise. -/
def cbC3 : CycleCallbacks :=
  ⟨fun _ => some (true, some 10, 4), fun _ => false, fun _ => false⟩

/-- Concrete ordered entry for the C3 witness. -/
def entC3 : EndpointEntry :=
  ⟨"0001", ⟨"0001", "10.0.0.1", "", ""⟩, "10.0.0.1", "10.0.0.1"⟩

/-- Concrete callbacks for the C5 witness: every gathered future failed. -/
def cbC5 : CycleCallbacks :=
  ⟨fun _ => none, fun _ => false, fun _ => false⟩

/-- Concrete repository for the C5 witness: one store without an address. -/
def repoC5 : Repo :=
  ⟨[("0099", ⟨"0099", "", "", ""⟩)], [], []⟩

/-- Concrete callbacks for the C6 witness: every gathered future failed and
both UI callbacks raise. -/
def cbC6 : CycleCallbacks :=
  ⟨fun _ => none, fun _ => true, fun _ => true⟩

/-- Concrete repository for the C6 witness. -/
def repoC6 : Repo :=
  ⟨[("0001", ⟨"0001", "10.0.0.1", "", ""⟩)], [], []⟩

/-- Concrete callbacks for the C7 witness: all probes succeed. -/
def cbC7 : CycleCallbacks :=
  ⟨fun _ => some (true, some 5, 4), fun _ => false, fun _ => false⟩

/-- Concrete repository for the C7 witness: two stores. -/
def repoC7 : Repo :=
  ⟨[("0001", ⟨"0001", "10.0.0.1", "", ""⟩),
    ("0002", ⟨"0002", "10.0.0.2", "", ""⟩)], [], []⟩

/-- A two-object heap for the C8 theorems: the repository's stores dict lives
at dict address 0 and maps `"0001"` to the `Store` object at address 100. -/
def heapC8 : PyHeap :=
  ⟨[(0, [("0001", 100)])], [(100, ⟨"0001", "10.0.0.1", "", ""⟩)]⟩

/-! ## Dict lemmas -/

theorem dictGet_insert_self {κ α : Type} [DecidableEq κ]
    (l : List (κ × α)) (k : κ) (v : α) :
    dictGet (dictInsert l k v) k = some v := by
  induction l with
  | nil => simp [dictInsert, dictGet]
  | cons p rest ih =>
      obtain ⟨k', v'⟩ := p
      by_cases h : k' = k
      · simp [dictInsert, dictGet, h]
      · simp [dictInsert, dictGet, h, ih]

theorem dictGet_insert_ne {κ α : Type} [DecidableEq κ]
    (l : List (κ × α)) (k k' : κ) (v : α) (h : k' ≠ k) :
    dictGet (dictInsert l k v) k' = dictGet l k' := by
  induction l with
  | nil => simp [dictInsert, dictGet, Ne.symm h]
  | cons p rest ih =>
      obtain ⟨k₀, v₀⟩ := p
      by_cases h0 : k₀ = k
      · subst h0
        simp [dictInsert, dictGet, Ne.symm h]
      · simp [dictInsert, dictGet, h0, ih]

/-! ## `set_status` helper lemmas -/

theorem set_status_status_self (r : Repo) (number : String) (online : Bool)
    (now : String) :
    dictGet (r.set_status number online now).status number = some online := by
  cases h : dictGet r.status number with
  | none => simp [Repo.set_status, h, dictGet_insert_self]
  | some p =>
      by_cases hp : p = online
      · simp [Repo.set_status, h, hp, dictGet_insert_self]
      · simp [Repo.set_status, h, hp, dictGet_insert_self]

theorem set_status_status_ne (r : Repo) (number n' : String) (online : Bool)
    (now : String) (h : n' ≠ number) :
    dictGet (r.set_status number online now).status n' = dictGet r.status n' := by
  cases h0 : dictGet r.status number with
  | none => simp [Repo.set_status, h0, dictGet_insert_ne _ _ _ _ h]
  | some p =>
      by_cases hp : p = online
      · simp [Repo.set_status, h0, hp, dictGet_insert_ne _ _ _ _ h]
      · simp [Repo.set_status, h0, hp, dictGet_insert_ne _ _ _ _ h]

theorem set_status_stores (r : Repo) (number : String) (online : Bool)
    (now : String) :
    (r.set_status number online now).stores = r.stores := by
  cases h0 : dictGet r.status number with
  | none => simp [Repo.set_status, h0]
  | some p =>
      by_cases hp : p = online
      · simp [Repo.set_status, h0, hp]
      · simp [Repo.set_status, h0, hp]

theorem set_status_last_change_of_none (r : Repo) (number : String)
    (online : Bool) (now : String) (h : dictGet r.status number = none) :
    (r.set_status number online now).last_change = r.last_change := by
  simp [Repo.set_status, h]

theorem set_status_last_change_of_eq (r : Repo) (number : String)
    (online : Bool) (now : String) (h : dictGet r.status number = some online) :
    (r.set_status number online now).last_change = r.last_change := by
  simp [Repo.set_status, h]

theorem set_status_last_change_of_ne (r : Repo) (number : String) (p : Bool)
    (online : Bool) (now : String) (h : dictGet r.status number = some p)
    (hne : p ≠ online) :
    dictGet (r.set_status number online now).last_change number = some now := by
  simp [Repo.set_status, h, hne, dictGet_insert_self]

/-! ## C1 — online flag equals the quorum comparison -/

/-- C1: for every probe outcome and every quorum threshold ≥ 1 (the shipped
`PING_QUORUM` is 1), the verdict's online flag is `true` exactly when
`success_count ≥ quorum`; in particular `success_count = 0` yields offline. -/
theorem ping_online_iff_quorum (quorum : Nat) (out : SubprocessOutcome)
    (hq : 1 ≤ quorum) :
    ((ping_with_stats_core quorum out).1 = true ↔
      (ping_with_stats_core quorum out).2.2 ≥ quorum) ∧
    ((ping_with_stats_core quorum out).2.2 = 0 →
      (ping_with_stats_core quorum out).1 = false) := by
  cases out with
  | raised =>
      refine ⟨?_, fun _ => rfl⟩
      simp [ping_with_stats_core]
      omega
  | completed s =>
      refine ⟨by simp [ping_with_stats_core], ?_⟩
      intro h
      simp [ping_with_stats_core] at h ⊢
      omega

theorem ping_online_iff_quorum_witness :
    ((ping_with_stats_core 1 (SubprocessOutcome.completed
        (some "Packets: Sent = 4, Received = 3, Lost = 1"))).1 = true ↔
      (ping_with_stats_core 1 (SubprocessOutcome.completed
        (some "Packets: Sent = 4, Received = 3, Lost = 1"))).2.2 ≥ 1) ∧
    ((ping_with_stats_core 1 (SubprocessOutcome.completed
        (some "Packets: Sent = 4, Received = 3, Lost = 1"))).2.2 = 0 →
      (ping_with_stats_core 1 (SubprocessOutcome.completed
        (some "Packets: Sent = 4, Received = 3, Lost = 1"))).1 = false) :=
  ping_online_iff_quorum 1
    (SubprocessOutcome.completed (some "Packets: Sent = 4, Received = 3, Lost = 1"))
    (by decide)

/-! ## C2 — `Repo.set_status` semantics -/

/-- C2: `set_status(number, online)` always stores the new value; it stamps
`last_change[number] = now` exactly when a prior status exists and differs;
with no prior status, or an equal prior status, `last_change` is untouched. -/
theorem set_status_spec (r : Repo) (number : String) (online : Bool)
    (now : String) :
    dictGet (r.set_status number online now).status number = some online ∧
    (dictGet r.status number = none →
      (r.set_status number online now).last_change = r.last_change) ∧
    (dictGet r.status number = some online →
      (r.set_status number online now).last_change = r.last_change) ∧
    (∀ p, dictGet r.status number = some p → p ≠ online →
      dictGet (r.set_status number online now).last_change number = some now) := by
  cases h : dictGet r.status number with
  | none =>
      simp [Repo.set_status, h, dictGet_insert_self]
  | some p =>
      by_cases hp : p = online
      · subst hp
        simp [Repo.set_status, h, dictGet_insert_self]
      · simp [Repo.set_status, h, hp, dictGet_insert_self]

theorem set_status_spec_witness :
    dictGet ((Repo.mk [] [("0001", true)] []).set_status "0001" false
        "2024-01-01 00:00:00").last_change "0001" =
      some "2024-01-01 00:00:00" :=
  (set_status_spec (Repo.mk [] [("0001", true)] []) "0001" false
      "2024-01-01 00:00:00").2.2.2 true (by decide) (by decide)

/-! ## C4 — average latency definedness -/

/-- C4 as stated is false on the code: when the ping output reports received
packets but contains no parseable `Average = Xms` field (as happens for
"Destination host unreachable" replies, which Windows ping counts as received
while omitting the round-trip-times section), `success_count > 0` yet
`avg_latency_ms` is `None`. -/
theorem avg_latency_iff_cex :
    ¬ (((ping_with_stats (SubprocessOutcome.completed
          (some "Packets: Sent = 4, Received = 4, Lost = 0"))).2.1 ≠ none) ↔
        0 < (ping_with_stats (SubprocessOutcome.completed
          (some "Packets: Sent = 4, Received = 4, Lost = 0"))).2.2) := by
  decide

/-- C4 amended: `avg_latency_ms` is absent (never zero) whenever
`success_count = 0`; when `success_count > 0` it equals the result of parsing
the `Average = Xms` field of the ping output — present exactly when that
field parses, in which case it is the ping tool's reported mean over the
successful samples only. -/
theorem avg_latency_amended (quorum : Nat) (out : SubprocessOutcome) :
    ((ping_with_stats_core quorum out).2.2 = 0 →
      (ping_with_stats_core quorum out).2.1 = none) ∧
    (∀ stdout, out = SubprocessOutcome.completed stdout →
      0 < (ping_with_stats_core quorum out).2.2 →
      (ping_with_stats_core quorum out).2.1 =
        searchAverageMs ((stdout.getD "").data)) := by
  cases out with
  | raised =>
      exact ⟨fun _ => rfl, fun stdout h => by cases h⟩
  | completed s =>
      constructor
      · intro h
        simp [ping_with_stats_core] at h ⊢
        omega
      · intro stdout h hpos
        cases h
        simp [ping_with_stats_core] at hpos ⊢
        omega

theorem avg_latency_amended_witness :
    (ping_with_stats_core 1 (SubprocessOutcome.completed
        (some "Received = 3, Average = 12ms"))).2.1 =
      searchAverageMs (((some "Received = 3, Average = 12ms" :
          Option String).getD "").data) :=
  (avg_latency_amended 1 (SubprocessOutcome.completed
      (some "Received = 3, Average = 12ms"))).2
    (some "Received = 3, Average = 12ms") rfl (by decide)

/-! ## C9 — the probe/aggregation function fails closed -/

/-- C9: `ping_with_stats` is a total function of the subprocess outcome; a
raised transport/timeout error, and any completed run whose output has no
parseable `Received = N` field (malformed output, including stdout `None`),
yield exactly `(False, None, 0)` — no exception ever reaches the caller. -/
theorem ping_fails_closed :
    ping_with_stats SubprocessOutcome.raised = (false, none, 0) ∧
    ∀ stdout : Option String,
      searchReceived ((stdout.getD "").data) = none →
      ping_with_stats (SubprocessOutcome.completed stdout) = (false, none, 0) := by
  refine ⟨rfl, ?_⟩
  intro stdout h
  simp [ping_with_stats, ping_with_stats_core, h, PING_QUORUM]

theorem ping_fails_closed_witness :
    ping_with_stats (SubprocessOutcome.completed (some "Request timed out.")) =
      (false, none, 0) :=
  ping_fails_closed.2 (some "Request timed out.") (by decide)

/-! ## C3 — per-endpoint verdict processing -/

/-- C3: processing one endpoint's verdict in `_run_cycle` (lines 134-141),
assuming the live repository status agrees with the cycle snapshot at this
number (as holds within a cycle: each number is touched once) and the refresh
callback does not raise.  A first observation stores the status, fires one
refresh and zero notifications, and leaves `last_change` untouched; a flip
fires exactly one notification and one refresh, stores the status, and stamps
`last_change = now`; a non-flip fires zero notifications and zero refreshes
and leaves the repository — in particular `last_change` — unchanged. -/
theorem process_verdict_spec (cb : CycleCallbacks) (snap : List (String × Bool))
    (now : String) (repo : Repo) (e : EndpointEntry)
    (hagree : dictGet repo.status e.number = dictGet snap e.number)
    (hok : cb.onAnyChangeRaises e.number = false) :
    (dictGet snap e.number = none →
      dictGet (applyEntry cb snap now repo e).status e.number =
          some (verdictFor cb e.effective_ip).1 ∧
      countRefresh (entryActions cb snap e) = 1 ∧
      countNotify (entryActions cb snap e) = 0 ∧
      (applyEntry cb snap now repo e).last_change = repo.last_change) ∧
    (∀ p, dictGet snap e.number = some p →
      p ≠ (verdictFor cb e.effective_ip).1 →
      countNotify (entryActions cb snap e) = 1 ∧
      countRefresh (entryActions cb snap e) = 1 ∧
      dictGet (applyEntry cb snap now repo e).status e.number =
          some (verdictFor cb e.effective_ip).1 ∧
      dictGet (applyEntry cb snap now repo e).last_change e.number = some now) ∧
    (dictGet snap e.number = some (verdictFor cb e.effective_ip).1 →
      countNotify (entryActions cb snap e) = 0 ∧
      countRefresh (entryActions cb snap e) = 0 ∧
      applyEntry cb snap now repo e = repo) := by
  refine ⟨?_, ?_, ?_⟩
  · intro h
    rw [h] at hagree
    refine ⟨?_, ?_, ?_, ?_⟩
    · simp [applyEntry, h, set_status_status_self]
    · simp [entryActions, statusActions, h, countRefresh, List.filter]
    · simp [entryActions, statusActions, h, countNotify, List.filter]
    · simp [applyEntry, h, set_status_last_change_of_none _ _ _ _ hagree]
  · intro p h hne
    rw [h] at hagree
    refine ⟨?_, ?_, ?_, ?_⟩
    · simp [entryActions, statusActions, h, hne, hok, countNotify, List.filter]
    · simp [entryActions, statusActions, h, hne, hok, countRefresh, List.filter]
    · simp [applyEntry, h, hne, set_status_status_self]
    · simp [applyEntry, h, hne,
        set_status_last_change_of_ne _ _ _ _ _ hagree hne]
  · intro h
    refine ⟨?_, ?_, ?_⟩
    · simp [entryActions, statusActions, h, countNotify, List.filter]
    · simp [entryActions, statusActions, h, countRefresh, List.filter]
    · simp [applyEntry, h]

theorem process_verdict_spec_witness :
    countNotify (entryActions cbC3 [("0001", false)] entC3) = 1 ∧
    dictGet (applyEntry cbC3 [("0001", false)] "2024-01-01 00:00:00"
        (Repo.mk [] [("0001", false)] []) entC3).last_change "0001" =
      some "2024-01-01 00:00:00" :=
  let h := (process_verdict_spec cbC3 [("0001", false)] "2024-01-01 00:00:00"
      (Repo.mk [] [("0001", false)] []) entC3 rfl rfl).2.1 false rfl (by decide)
  ⟨h.1, h.2.2.2⟩

/-! ## String lemmas for the normalization proof (C10) -/

theorem dropWhile_head_not (p : Char → Bool) (l : List Char) (c : Char)
    (cs : List Char) (h : l.dropWhile p = c :: cs) : p c = false := by
  induction l with
  | nil => simp at h
  | cons a as ih =>
      rw [List.dropWhile_cons] at h
      by_cases ha : p a
      · rw [if_pos ha] at h
        exact ih h
      · rw [if_neg ha] at h
        cases h
        exact Bool.not_eq_true _ ▸ eq_false_of_ne_true ha

theorem stripChars_head (l : List Char) (c : Char) (cs : List Char)
    (h : stripChars l = c :: cs) : pyIsSpace c = false := by
  unfold stripChars at h
  set m := (l.dropWhile pyIsSpace).reverse with hm
  set X := m.dropWhile pyIsSpace with hX
  have hXne : X ≠ [] := by
    intro h0
    rw [h0] at h
    simp at h
  have hlast : X.getLast? = some c := by
    rw [← List.head?_reverse, h]
    rfl
  obtain ⟨t, hts⟩ := List.dropWhile_suffix (l := m) pyIsSpace
  have hmlast : m.getLast? = some c := by
    rw [← hts, List.getLast?_append_of_ne_nil t hXne, hlast]
  rw [hm, List.getLast?_reverse] at hmlast
  cases hd : l.dropWhile pyIsSpace with
  | nil => rw [hd] at hmlast; simp at hmlast
  | cons b bs =>
      rw [hd] at hmlast
      simp at hmlast
      exact hmlast ▸ dropWhile_head_not pyIsSpace l b bs hd

theorem stripChars_last (l : List Char) (c : Char)
    (h : (stripChars l).getLast? = some c) : pyIsSpace c = false := by
  unfold stripChars at h
  rw [List.getLast?_reverse] at h
  cases hd : ((l.dropWhile pyIsSpace).reverse).dropWhile pyIsSpace with
  | nil => rw [hd] at h; simp at h
  | cons b bs =>
      rw [hd] at h
      simp at h
      exact h ▸ dropWhile_head_not pyIsSpace _ b bs hd

theorem stripChars_eq_self (l : List Char)
    (h1 : ∀ c, l.head? = some c → pyIsSpace c = false)
    (h2 : ∀ c, l.getLast? = some c → pyIsSpace c = false) :
    stripChars l = l := by
  have hd : l.dropWhile pyIsSpace = l := by
    cases l with
    | nil => rfl
    | cons a as =>
        rw [List.dropWhile_cons, h1 a rfl]
        simp
  unfold stripChars
  rw [hd]
  cases hrev : l.reverse with
  | nil =>
      have : l = [] := List.reverse_eq_nil_iff.mp hrev
      simp [this]
  | cons b bs =>
      have hb : pyIsSpace b = false := by
        apply h2
        rw [← List.head?_reverse, hrev]
        rfl
      have hstep : List.dropWhile pyIsSpace (b :: bs) = b :: bs := by
        simp [List.dropWhile_cons, hb]
      rw [hstep, ← hrev, List.reverse_reverse]

/-! ## zfill lemmas -/

theorem zfillChars_of_le (w : Nat) (l : List Char) (h : w ≤ l.length) :
    zfillChars w l = l := by
  unfold zfillChars
  rw [if_pos h]

theorem zfillChars_nil (w : Nat) (h : ¬ w ≤ ([] : List Char).length) :
    zfillChars w [] = List.replicate w '0' := by
  unfold zfillChars
  rw [if_neg h]
  show List.replicate (w - List.length ([] : List Char)) '0' =
    List.replicate w '0'
  simp

theorem zfillChars_cons_sign (w : Nat) (c : Char) (rest : List Char)
    (h : ¬ w ≤ (c :: rest).length) (hc : (c = '+' || c = '-') = true) :
    zfillChars w (c :: rest) =
      c :: (List.replicate (w - (c :: rest).length) '0' ++ rest) := by
  unfold zfillChars
  rw [if_neg h]
  simp [hc]

theorem zfillChars_cons_nosign (w : Nat) (c : Char) (rest : List Char)
    (h : ¬ w ≤ (c :: rest).length) (hc : (c = '+' || c = '-') = false) :
    zfillChars w (c :: rest) =
      List.replicate (w - (c :: rest).length) '0' ++ (c :: rest) := by
  unfold zfillChars
  rw [if_neg h]
  simp [hc]

theorem zfillChars_length (w : Nat) (l : List Char) :
    w ≤ (zfillChars w l).length := by
  by_cases h : w ≤ l.length
  · rw [zfillChars_of_le w l h]
    exact h
  · cases l with
    | nil =>
        rw [zfillChars_nil w h]
        simp
    | cons c rest =>
        by_cases hc : (c = '+' || c = '-') = true
        · rw [zfillChars_cons_sign w c rest h hc]
          simp at h ⊢
          omega
        · rw [zfillChars_cons_nosign w c rest h (by simpa using hc)]
          simp at h ⊢
          omega

theorem getLast?_cons_ne {α : Type} (a : α) (l : List α) (h : l ≠ []) :
    (a :: l).getLast? = l.getLast? := by
  have he : a :: l = [a] ++ l := rfl
  rw [he, List.getLast?_append_of_ne_nil _ h]

theorem stripChars_zfill_head (x : List Char) (c : Char)
    (hc : (zfillChars 4 (stripChars x)).head? = some c) :
    pyIsSpace c = false := by
  by_cases h : 4 ≤ (stripChars x).length
  · rw [zfillChars_of_le 4 _ h] at hc
    cases hsc : stripChars x with
    | nil => rw [hsc] at hc; simp at hc
    | cons b bs =>
        rw [hsc] at hc
        simp at hc
        subst hc
        exact stripChars_head x b bs hsc
  · cases hsc : stripChars x with
    | nil =>
        rw [hsc] at hc h
        rw [zfillChars_nil 4 h] at hc
        rw [show List.replicate 4 '0' = '0' :: List.replicate 3 '0' from rfl] at hc
        simp at hc
        subst hc
        decide
    | cons b bs =>
        rw [hsc] at hc h
        by_cases hb : (b = '+' || b = '-') = true
        · rw [zfillChars_cons_sign 4 b bs h hb] at hc
          simp at hc
          subst hc
          simp at hb
          rcases hb with hb | hb <;> subst hb <;> decide
        · rw [zfillChars_cons_nosign 4 b bs h (by simpa using hb)] at hc
          have hk : 4 - (b :: bs).length ≠ 0 := by
            simp only [List.length_cons] at h ⊢
            omega
          obtain ⟨m, hm⟩ := Nat.exists_eq_succ_of_ne_zero hk
          rw [hm, List.replicate_succ] at hc
          simp at hc
          subst hc
          decide

theorem stripChars_zfill_last (x : List Char) (c : Char)
    (hc : (zfillChars 4 (stripChars x)).getLast? = some c) :
    pyIsSpace c = false := by
  by_cases h : 4 ≤ (stripChars x).length
  · rw [zfillChars_of_le 4 _ h] at hc
    exact stripChars_last x c hc
  · cases hsc : stripChars x with
    | nil =>
        rw [hsc] at hc h
        rw [zfillChars_nil 4 h] at hc
        have h0 : (List.replicate 4 '0').getLast? = some '0' := by decide
        rw [h0] at hc
        simp at hc
        subst hc
        decide
    | cons b bs =>
        rw [hsc] at hc h
        by_cases hb : (b = '+' || b = '-') = true
        · rw [zfillChars_cons_sign 4 b bs h hb] at hc
          cases hbs : bs with
          | nil =>
              subst hbs
              have hlist :
                  b :: (List.replicate (4 - (b :: ([] : List Char)).length) '0'
                      ++ ([] : List Char)) = b :: List.replicate 3 '0' := by
                simp
              rw [hlist, getLast?_cons_ne b _ (by decide)] at hc
              have h0 : (List.replicate 3 '0').getLast? = some '0' := by decide
              rw [h0] at hc
              simp at hc
              subst hc
              decide
          | cons r rs =>
              subst hbs
              rw [getLast?_cons_ne b _ (by simp),
                List.getLast?_append_of_ne_nil _ (by simp)] at hc
              apply stripChars_last x c
              rw [hsc, getLast?_cons_ne _ _ (by simp), hc]
        · rw [zfillChars_cons_nosign 4 b bs h (by simpa using hb)] at hc
          rw [List.getLast?_append_of_ne_nil _ (by simp)] at hc
          apply stripChars_last x c
          rw [hsc, hc]

theorem stripChars_zfill_stripChars (x : List Char) :
    stripChars (zfillChars 4 (stripChars x)) = zfillChars 4 (stripChars x) :=
  stripChars_eq_self _ (fun c hc => stripChars_zfill_head x c hc)
    (fun c hc => stripChars_zfill_last x c hc)

theorem pyStrip_zfill_pyStrip (s : String) :
    pyStrip (zfill 4 (pyStrip s)) = zfill 4 (pyStrip s) :=
  congrArg String.mk (stripChars_zfill_stripChars s.data)

theorem zfill_zfill (s : String) : zfill 4 (zfill 4 s) = zfill 4 s :=
  congrArg String.mk (zfillChars_of_le 4 _ (zfillChars_length 4 s.data))

theorem zfill_ne_empty (s : String) : zfill 4 s ≠ "" := by
  intro h
  have hd : zfillChars 4 s.data = [] := congrArg String.data h
  have hlen := zfillChars_length 4 s.data
  rw [hd] at hlen
  simp at hlen

/-! ## C10 — normalization invariance of the lookup -/

/-- C10 as stated is false on the code: for the empty store number the
function returns `None` up front, while the normalized form
`"".strip().zfill(4) = "0000"` is a legitimate key that the loaded table can
contain (`load_store_ip_list` maps a CSV row with Store ID `"0"` to key
`"0000"`), so the two lookups disagree. -/
theorem get_ip_normalized_cex :
    ¬ (get_ip_for_store [("0000", "10.0.0.1")] "" =
        get_ip_for_store [("0000", "10.0.0.1")] (zfill 4 (pyStrip ""))) := by
  decide

/-- C10 amended: for every loaded table and every *non-empty* store number
`n`, `get_ip_for_store` is invariant under normalization — it returns the
same entry for `n` and for `n` stripped of surrounding whitespace and
zero-filled to 4 characters (so `"7"`, `" 7 "` and `"0007"` all resolve
alike) — and the empty number always resolves to absent.  (For the empty
number itself, normalization invariance can fail: see the counterexample.) -/
theorem get_ip_normalized (ipMap : List (String × String)) (n : String)
    (hn : n ≠ "") :
    get_ip_for_store ipMap n = get_ip_for_store ipMap (zfill 4 (pyStrip n)) ∧
    get_ip_for_store ipMap "" = none := by
  refine ⟨?_, rfl⟩
  unfold get_ip_for_store
  rw [if_neg hn, if_neg (zfill_ne_empty _), pyStrip_zfill_pyStrip, zfill_zfill]

theorem get_ip_normalized_witness :
    (get_ip_for_store [("0007", "10.0.0.9")] " 7 " =
      get_ip_for_store [("0007", "10.0.0.9")] (zfill 4 (pyStrip " 7 "))) ∧
    get_ip_for_store [("0007", "10.0.0.9")] "" = none :=
  get_ip_normalized [("0007", "10.0.0.9")] " 7 " (by decide)

/-! ## C8 — what `Repo.snapshot` does and does not copy -/

/-- C8 as stated is false on the code: `snapshot` returns `dict(self._stores)`
— a shallow copy — and `Store` is a mutable dataclass, so the snapshot and
the live repository share the `Store` objects.  Concretely: after copying the
repo's stores dict (address 0) to the snapshot dict (address 1), the snapshot
still maps `"0001"` to the shared object at address 100, and an in-place
`.ip` assignment on that object through the snapshot changes what the
repository's own dict yields for `"0001"`. -/
theorem snapshot_shared_store_cex :
    ((dictGet (heapC8.dictCopy 0 1).dicts 1).bind
        fun entries => dictGet entries "0001") = some 100 ∧
    ((heapC8.dictCopy 0 1).storeSetIp 100 "10.9.9.9").readStore 0 "0001" =
      some ⟨"0001", "10.9.9.9", "", ""⟩ ∧
    (heapC8.dictCopy 0 1).readStore 0 "0001" =
      some ⟨"0001", "10.0.0.1", "", ""⟩ := by
  decide

/-- C8 amended: `snapshot()` returns freshly allocated top-level dict copies
taken at a single instant — the copy holds exactly the entries the live dict
held, and entry-level mutation (adding, removing, or re-pointing keys) of
either dict never affects the other.  The `_status` and `_last_change` dicts
hold immutable values (`bool`/`str`), so for them this is full independence;
the `Store` values of the stores dict, however, are shared by reference, so
in-place mutation of a contained `Store` is visible on both sides (see the
counterexample) — callers are documented not to mutate them. -/
theorem snapshot_shallow_copy_spec (h : PyHeap) (d fresh : Nat)
    (entries : List (String × Nat)) (hd : dictGet h.dicts d = some entries)
    (hne : fresh ≠ d) :
    dictGet (h.dictCopy d fresh).dicts fresh = dictGet h.dicts d ∧
    (∀ k ref, dictGet ((h.dictCopy d fresh).dictSetItem fresh k ref).dicts d =
      dictGet (h.dictCopy d fresh).dicts d) ∧
    (∀ k ref, dictGet ((h.dictCopy d fresh).dictSetItem d k ref).dicts fresh =
      dictGet (h.dictCopy d fresh).dicts fresh) := by
  have h1 : (h.dictCopy d fresh).dicts = dictInsert h.dicts fresh entries := by
    simp [PyHeap.dictCopy, hd]
  refine ⟨?_, ?_, ?_⟩
  · rw [h1, dictGet_insert_self, hd]
  · intro k ref
    have hget : dictGet (h.dictCopy d fresh).dicts fresh = some entries := by
      rw [h1, dictGet_insert_self]
    simp only [PyHeap.dictSetItem, hget]
    exact dictGet_insert_ne _ _ _ _ (Ne.symm hne)
  · intro k ref
    have hget : dictGet (h.dictCopy d fresh).dicts d = some entries := by
      rw [h1, dictGet_insert_ne _ _ _ _ (Ne.symm hne), hd]
    simp only [PyHeap.dictSetItem, hget]
    exact dictGet_insert_ne _ _ _ _ hne

theorem snapshot_shallow_copy_spec_witness :
    dictGet (heapC8.dictCopy 0 1).dicts 1 = dictGet heapC8.dicts 0 ∧
    (∀ k ref, dictGet ((heapC8.dictCopy 0 1).dictSetItem 1 k ref).dicts 0 =
      dictGet (heapC8.dictCopy 0 1).dicts 0) ∧
    (∀ k ref, dictGet ((heapC8.dictCopy 0 1).dictSetItem 0 k ref).dicts 1 =
      dictGet (heapC8.dictCopy 0 1).dicts 1) :=
  snapshot_shallow_copy_spec heapC8 0 1 [("0001", 100)] (by decide) (by decide)

/-! ## Cycle decomposition lemmas -/

theorem cycle_foldl_split (cb : CycleCallbacks) (snap : List (String × Bool))
    (now : String) (entries : List EndpointEntry) (r : Repo)
    (acc : List Action) :
    entries.foldl
      (fun a e =>
        let step := processEntry cb snap now a.1 e
        (step.1, a.2 ++ step.2)) (r, acc) =
    (entries.foldl (applyEntry cb snap now) r,
      acc ++ (entries.map (entryActions cb snap)).flatten) := by
  induction entries generalizing r acc with
  | nil => simp
  | cons e es ih =>
      simp only [List.foldl_cons, List.map_cons, List.flatten_cons]
      rw [ih]
      simp [processEntry, List.append_assoc]

theorem runCycle_eq (cb : CycleCallbacks) (ipMap : List (String × String))
    (now : String) (repo : Repo) :
    runCycle cb ipMap now repo =
      ((orderedEntries ipMap repo.stores).foldl
          (applyEntry cb repo.status now) repo,
        ((orderedEntries ipMap repo.stores).map
          (entryActions cb repo.status)).flatten) := by
  unfold runCycle
  simpa using cycle_foldl_split cb repo.status now
    (orderedEntries ipMap repo.stores) repo []

theorem statusActions_num (cb : CycleCallbacks) (snap : List (String × Bool))
    (e : EndpointEntry) (online : Bool) :
    ∀ a ∈ statusActions cb snap e online, a.num = e.number := by
  intro a ha
  unfold statusActions at ha
  cases hm : dictGet snap e.number with
  | none =>
      rw [hm] at ha
      simp at ha
      rcases ha with rfl | rfl <;> rfl
  | some prev =>
      rw [hm] at ha
      by_cases hp : prev ≠ online
      · simp only [hp, if_true, ite_true] at ha
        by_cases hr : cb.onAnyChangeRaises e.number
        · simp [hp, hr] at ha
          rcases ha with rfl | rfl <;> rfl
        · simp [hp, hr] at ha
          rcases ha with rfl | rfl | rfl <;> rfl
      · simp [hp] at ha

theorem statusActions_no_sink (cb : CycleCallbacks) (snap : List (String × Bool))
    (e : EndpointEntry) (online : Bool) :
    ∀ a ∈ statusActions cb snap e online, sinkNumber a = none := by
  intro a ha
  unfold statusActions at ha
  cases hm : dictGet snap e.number with
  | none =>
      rw [hm] at ha
      simp at ha
      rcases ha with rfl | rfl <;> rfl
  | some prev =>
      rw [hm] at ha
      by_cases hp : prev ≠ online
      · by_cases hr : cb.onAnyChangeRaises e.number
        · simp [hp, hr] at ha
          rcases ha with rfl | rfl <;> rfl
        · simp [hp, hr] at ha
          rcases ha with rfl | rfl | rfl <;> rfl
      · simp [hp] at ha

theorem entryActions_num (cb : CycleCallbacks) (snap : List (String × Bool))
    (e : EndpointEntry) :
    ∀ a ∈ entryActions cb snap e, a.num = e.number := by
  intro a ha
  rcases List.mem_cons.mp ha with rfl | ha2
  · rfl
  · exact statusActions_num cb snap e _ a ha2

theorem entryActions_filterMap_sink (cb : CycleCallbacks)
    (snap : List (String × Bool)) (e : EndpointEntry) :
    (entryActions cb snap e).filterMap sinkNumber = [e.number] := by
  unfold entryActions
  rw [List.filterMap_cons]
  simp only [sinkNumber]
  rw [List.filterMap_eq_nil_iff.mpr (statusActions_no_sink cb snap e _)]

theorem entryActions_filter_self (cb : CycleCallbacks)
    (snap : List (String × Bool)) (e : EndpointEntry) (n : String)
    (hn : e.number = n) :
    (entryActions cb snap e).filter (fun a => a.num == n) =
      entryActions cb snap e := by
  rw [List.filter_eq_self]
  intro a ha
  rw [entryActions_num cb snap e a ha, hn]
  simp

theorem entryActions_filter_ne (cb : CycleCallbacks)
    (snap : List (String × Bool)) (e : EndpointEntry) (n : String)
    (hn : e.number ≠ n) :
    (entryActions cb snap e).filter (fun a => a.num == n) = [] := by
  rw [List.filter_eq_nil_iff]
  intro a ha
  rw [entryActions_num cb snap e a ha]
  simp [hn]

theorem orderedEntries_numbers (ipMap : List (String × String))
    (stores : List (String × Store)) :
    (orderedEntries ipMap stores).map EndpointEntry.number =
      stores.map Prod.fst := by
  simp [orderedEntries, List.map_map, Function.comp]

theorem joined_filterMap_sink (cb : CycleCallbacks)
    (snap : List (String × Bool)) (entries : List EndpointEntry) :
    ((entries.map (entryActions cb snap)).flatten.filterMap sinkNumber) =
      entries.map EndpointEntry.number := by
  induction entries with
  | nil => rfl
  | cons e es ih =>
      simp only [List.map_cons, List.flatten_cons, List.filterMap_append]
      rw [entryActions_filterMap_sink, ih]
      rfl

theorem joined_filter_none (cb : CycleCallbacks) (snap : List (String × Bool))
    (es : List EndpointEntry) (n : String) (h : ∀ e ∈ es, e.number ≠ n) :
    ((es.map (entryActions cb snap)).flatten.filter (fun a => a.num == n)) = [] := by
  induction es with
  | nil => rfl
  | cons e es ih =>
      simp only [List.map_cons, List.flatten_cons, List.filter_append]
      rw [entryActions_filter_ne cb snap e n (h e (by simp)), List.nil_append,
        ih (fun e' he' => h e' (by simp [he']))]

theorem joined_filter_about (cb : CycleCallbacks) (snap : List (String × Bool))
    (entries : List EndpointEntry) (n : String)
    (hnd : (entries.map EndpointEntry.number).Nodup)
    (e : EndpointEntry) (he : e ∈ entries) (hen : e.number = n) :
    ((entries.map (entryActions cb snap)).flatten.filter (fun a => a.num == n)) =
      entryActions cb snap e := by
  induction entries with
  | nil => cases he
  | cons e0 es ih =>
      simp only [List.map_cons, List.flatten_cons, List.filter_append]
      simp only [List.map_cons, List.nodup_cons] at hnd
      rcases List.mem_cons.mp he with rfl | hmem
      · rw [entryActions_filter_self cb snap e n hen]
        have hno : ∀ e' ∈ es, e'.number ≠ n := by
          intro e' he' hq
          apply hnd.1
          rw [hen, ← hq]
          exact List.mem_map_of_mem EndpointEntry.number he'
        rw [joined_filter_none cb snap es n hno, List.append_nil]
      · have h0 : e0.number ≠ n := by
          intro hq
          apply hnd.1
          rw [hq, ← hen]
          exact List.mem_map_of_mem EndpointEntry.number hmem
        rw [entryActions_filter_ne cb snap e0 n h0, List.nil_append]
        exact ih hnd.2 hmem

theorem no_sink_isSink (a : Action) (h : sinkNumber a = none) :
    Action.isSink a = false := by
  cases a <;> simp [sinkNumber, Action.isSink] at h ⊢

theorem joined_filter_sink (cb : CycleCallbacks) (snap : List (String × Bool))
    (entries : List EndpointEntry) :
    ((entries.map (entryActions cb snap)).flatten.filter Action.isSink) =
      entries.map (fun e =>
        Action.sink e.number e.display_ip (verdictFor cb e.effective_ip).1
          (verdictFor cb e.effective_ip).2.1
          (verdictFor cb e.effective_ip).2.2) := by
  induction entries with
  | nil => rfl
  | cons e es ih =>
      simp only [List.map_cons, List.flatten_cons, List.filter_append]
      rw [ih]
      unfold entryActions
      rw [List.filter_cons]
      have hnil : (statusActions cb snap e
          (verdictFor cb e.effective_ip).1).filter Action.isSink = [] := by
        rw [List.filter_eq_nil_iff]
        intro a ha
        simp [no_sink_isSink a (statusActions_no_sink cb snap e _ a ha)]
      simp [Action.isSink, hnil]

theorem applyEntry_status_ne (cb : CycleCallbacks) (snap : List (String × Bool))
    (now : String) (r : Repo) (e : EndpointEntry) (n : String)
    (h : e.number ≠ n) :
    dictGet (applyEntry cb snap now r e).status n = dictGet r.status n := by
  cases hm : dictGet snap e.number with
  | none =>
      simp only [applyEntry, hm]
      exact set_status_status_ne _ _ _ _ _ (Ne.symm h)
  | some prev =>
      by_cases hp : prev ≠ (verdictFor cb e.effective_ip).1
      · simp only [applyEntry, hm, if_pos hp]
        exact set_status_status_ne _ _ _ _ _ (Ne.symm h)
      · simp only [applyEntry, hm, if_neg hp]

theorem foldl_status_untouched (cb : CycleCallbacks) (snap : List (String × Bool))
    (now : String) (es : List EndpointEntry) (r : Repo) (n : String)
    (h : ∀ e ∈ es, e.number ≠ n) :
    dictGet (es.foldl (applyEntry cb snap now) r).status n =
      dictGet r.status n := by
  induction es generalizing r with
  | nil => rfl
  | cons e es ih =>
      rw [List.foldl_cons, ih _ (fun e' he' => h e' (by simp [he']))]
      exact applyEntry_status_ne cb snap now r e n (h e (by simp))

theorem applyEntry_status_false (cb : CycleCallbacks) (snap : List (String × Bool))
    (now : String) (r : Repo) (e : EndpointEntry)
    (hv : (verdictFor cb e.effective_ip).1 = false)
    (hr : dictGet r.status e.number = dictGet snap e.number) :
    dictGet (applyEntry cb snap now r e).status e.number = some false := by
  cases hm : dictGet snap e.number with
  | none =>
      simp only [applyEntry, hm]
      rw [← hv]
      exact set_status_status_self _ _ _ _
  | some prev =>
      by_cases hp : prev ≠ (verdictFor cb e.effective_ip).1
      · simp only [applyEntry, hm, if_pos hp]
        rw [← hv]
        exact set_status_status_self _ _ _ _
      · simp only [applyEntry, hm, if_neg hp]
        push_neg at hp
        rw [hr, hm, hp, hv]

theorem sink_mem_joined (cb : CycleCallbacks) (snap : List (String × Bool))
    (entries : List EndpointEntry) (e : EndpointEntry) (he : e ∈ entries) :
    Action.sink e.number e.display_ip (verdictFor cb e.effective_ip).1
      (verdictFor cb e.effective_ip).2.1 (verdictFor cb e.effective_ip).2.2 ∈
      (entries.map (entryActions cb snap)).flatten := by
  apply List.mem_flatten.mpr
  exact ⟨entryActions cb snap e, List.mem_map_of_mem _ he,
    List.mem_cons_self _ _⟩

/-! ## C7 — per-cycle ordering guarantees -/

/-- C7: within one cycle the sink events appear in exactly the snapshot
(insertion) order of the stores — not probe-completion order (the gathered
results are re-indexed and every entry is processed by snapshot index) — and
for every store, the trace actions concerning it are headed by its sink
event, so the sink emission precedes that store's repository update.  The
cycle is a pure function of the snapshot, the gathered probe results and the
callback behaviours, hence deterministic for a fixed snapshot and fixed
probe outcomes. -/
theorem cycle_ordering (cb : CycleCallbacks) (ipMap : List (String × String))
    (now : String) (repo : Repo)
    (hnd : (repo.stores.map Prod.fst).Nodup) :
    ((runCycle cb ipMap now repo).2.filterMap sinkNumber) =
      repo.stores.map Prod.fst ∧
    (∀ number store, (number, store) ∈ repo.stores →
      ∃ d o a s rest,
        ((runCycle cb ipMap now repo).2.filter
            (fun act => act.num == number)) =
          Action.sink number d o a s :: rest ∧
        ∀ act ∈ rest, sinkNumber act = none) := by
  simp only [runCycle_eq]
  constructor
  · rw [joined_filterMap_sink, orderedEntries_numbers]
  · intro number store hmem
    have hentry : (⟨number, store, effectiveIp ipMap store,
        if effectiveIp ipMap store = "" then "—"
        else effectiveIp ipMap store⟩ : EndpointEntry) ∈
        orderedEntries ipMap repo.stores :=
      List.mem_map_of_mem _ hmem
    have hnd2 : ((orderedEntries ipMap repo.stores).map
        EndpointEntry.number).Nodup := by
      rw [orderedEntries_numbers]
      exact hnd
    refine ⟨if effectiveIp ipMap store = "" then "—" else effectiveIp ipMap store,
      (verdictFor cb (effectiveIp ipMap store)).1,
      (verdictFor cb (effectiveIp ipMap store)).2.1,
      (verdictFor cb (effectiveIp ipMap store)).2.2,
      statusActions cb repo.status
        ⟨number, store, effectiveIp ipMap store,
          if effectiveIp ipMap store = "" then "—" else effectiveIp ipMap store⟩
        (verdictFor cb (effectiveIp ipMap store)).1, ?_, ?_⟩
    · rw [joined_filter_about cb repo.status _ number hnd2 _ hentry rfl]
      rfl
    · exact fun act hact =>
        statusActions_no_sink cb repo.status _ _ act hact

/-! ## C6 — fault isolation within a cycle -/

/-- C6: the final repository state and the sequence of sink events of a cycle
are identical whether or not the `on_ping` / `on_any_change` callbacks raise
(every raise is caught at the scheduler: `on_ping` by its inner handler, the
rest by the per-endpoint outer handler, which at most suppresses the `notify`
call that would have followed); and a dispatched aggregation whose gathered
future resolved to an exception yields exactly the synthetic offline verdict
`(False, None, 0)` for that endpoint, whose sink event is still emitted.  The
cycle itself is a total function — no endpoint fault aborts it. -/
theorem cycle_fault_isolation (cb : CycleCallbacks)
    (ipMap : List (String × String)) (now : String) (repo : Repo) :
    (runCycle cb ipMap now repo).1 = (runCycle cb.noRaise ipMap now repo).1 ∧
    (runCycle cb ipMap now repo).2.filter Action.isSink =
      (runCycle cb.noRaise ipMap now repo).2.filter Action.isSink ∧
    (∀ e ∈ orderedEntries ipMap repo.stores, e.effective_ip ≠ "" →
      cb.probeResult e.effective_ip = none →
      verdictFor cb e.effective_ip = (false, none, 0) ∧
      Action.sink e.number e.display_ip false none 0 ∈
        (runCycle cb ipMap now repo).2) := by
  refine ⟨?_, ?_, ?_⟩
  · simp only [runCycle_eq]
    rfl
  · simp only [runCycle_eq]
    rw [joined_filter_sink, joined_filter_sink]
    rfl
  · intro e he hip hprobe
    have hv : verdictFor cb e.effective_ip = (false, none, 0) := by
      unfold verdictFor
      rw [if_neg hip, hprobe]
    refine ⟨hv, ?_⟩
    simp only [runCycle_eq]
    have hs := sink_mem_joined cb repo.status (orderedEntries ipMap repo.stores)
      e he
    simpa [hv] using hs

/-! ## C5 — address resolution and the synthetic offline verdict -/

/-- C5: the address probed for an endpoint is its explicit address when that
is non-empty after trimming, else the lookup-table entry for its id (which
`get_ip_for_store` normalizes), else unresolved (`""`); an unresolved
endpoint is never dispatched to the executor, its sink event carries the
display placeholder and the synthetic verdict `(False, None, 0)`, and after
the cycle its stored status is offline. -/
theorem resolve_address_spec (cb : CycleCallbacks)
    (ipMap : List (String × String)) (now : String) (repo : Repo)
    (number : String) (store : Store)
    (hmem : (number, store) ∈ repo.stores)
    (hnd : (repo.stores.map Prod.fst).Nodup) :
    (pyStrip store.ip ≠ "" → effectiveIp ipMap store = pyStrip store.ip) ∧
    (pyStrip store.ip = "" →
      effectiveIp ipMap store = (get_ip_for_store ipMap store.number).getD "") ∧
    (effectiveIp ipMap store = "" →
      number ∉ dispatchedNumbers ipMap repo.stores ∧
      Action.sink number "—" false none 0 ∈ (runCycle cb ipMap now repo).2 ∧
      dictGet (runCycle cb ipMap now repo).1.status number = some false) := by
  refine ⟨?_, ?_, ?_⟩
  · intro h
    unfold effectiveIp
    rw [if_pos h]
  · intro h
    unfold effectiveIp
    rw [if_neg (by simp [h])]
    cases hg : get_ip_for_store ipMap store.number <;> simp [hg]
  · intro heip
    have hentry : (⟨number, store, effectiveIp ipMap store,
        if effectiveIp ipMap store = "" then "—"
        else effectiveIp ipMap store⟩ : EndpointEntry) ∈
        orderedEntries ipMap repo.stores :=
      List.mem_map_of_mem _ hmem
    have hnd2 : ((orderedEntries ipMap repo.stores).map
        EndpointEntry.number).Nodup := by
      rw [orderedEntries_numbers]
      exact hnd
    refine ⟨?_, ?_, ?_⟩
    · intro hdisp
      unfold dispatchedNumbers at hdisp
      obtain ⟨e', he', hfe⟩ := List.mem_filterMap.mp hdisp
      by_cases h0 : e'.effective_ip = ""
      · rw [if_pos h0] at hfe
        cases hfe
      · rw [if_neg h0] at hfe
        have hnum : e'.number = number := by
          injection hfe
        have heq : e' = ⟨number, store, effectiveIp ipMap store,
            if effectiveIp ipMap store = "" then "—"
            else effectiveIp ipMap store⟩ :=
          List.inj_on_of_nodup_map hnd2 he' hentry hnum
        apply h0
        rw [heq]
        exact heip
    · simp only [runCycle_eq]
      have hs := sink_mem_joined cb repo.status
        (orderedEntries ipMap repo.stores) _ hentry
      simpa [heip, verdictFor] using hs
    · simp only [runCycle_eq]
      obtain ⟨l1, l2, hsplit⟩ := List.append_of_mem hentry
      rw [hsplit, List.foldl_append, List.foldl_cons]
      rw [hsplit] at hnd2
      have hnum_split : (l1 ++ (⟨number, store, effectiveIp ipMap store,
          if effectiveIp ipMap store = "" then "—"
          else effectiveIp ipMap store⟩ : EndpointEntry) :: l2).map
            EndpointEntry.number =
          l1.map EndpointEntry.number ++
            number :: l2.map EndpointEntry.number := by
        simp
      rw [hnum_split] at hnd2
      have hmid2 := List.nodup_middle.mp hnd2
      have hni : number ∉ l1.map EndpointEntry.number ++
          l2.map EndpointEntry.number := (List.nodup_cons.mp hmid2).1
      have hl1 : ∀ e' ∈ l1, e'.number ≠ number := by
        intro e' he' hq
        exact hni (List.mem_append_left _ (hq ▸ List.mem_map_of_mem _ he'))
      have hl2 : ∀ e' ∈ l2, e'.number ≠ number := by
        intro e' he' hq
        exact hni (List.mem_append_right _ (hq ▸ List.mem_map_of_mem _ he'))
      rw [foldl_status_untouched cb repo.status now l2 _ number hl2]
      have hv : (verdictFor cb (effectiveIp ipMap store)).1 = false := by
        rw [heip]
        rfl
      exact applyEntry_status_false cb repo.status now _ _ hv
        (foldl_status_untouched cb repo.status now l1 repo number hl1)

theorem resolve_address_spec_witness :
    (pyStrip (Store.mk "0099" "" "" "").ip ≠ "" →
      effectiveIp [] (Store.mk "0099" "" "" "") =
        pyStrip (Store.mk "0099" "" "" "").ip) ∧
    (pyStrip (Store.mk "0099" "" "" "").ip = "" →
      effectiveIp [] (Store.mk "0099" "" "" "") =
        (get_ip_for_store [] (Store.mk "0099" "" "" "").number).getD "") ∧
    (effectiveIp [] (Store.mk "0099" "" "" "") = "" →
      "0099" ∉ dispatchedNumbers [] repoC5.stores ∧
      Action.sink "0099" "—" false none 0 ∈ (runCycle cbC5 [] "t" repoC5).2 ∧
      dictGet (runCycle cbC5 [] "t" repoC5).1.status "0099" = some false) :=
  resolve_address_spec cbC5 [] "t" repoC5 "0099" (Store.mk "0099" "" "" "")
    (by decide) (by decide)

theorem cycle_fault_isolation_witness :
    verdictFor cbC6 "10.0.0.1" = (false, none, 0) ∧
    Action.sink "0001" "10.0.0.1" false none 0 ∈
      (runCycle cbC6 [] "t" repoC6).2 :=
  (cycle_fault_isolation cbC6 [] "t" repoC6).2.2
    ⟨"0001", ⟨"0001", "10.0.0.1", "", ""⟩, "10.0.0.1", "10.0.0.1"⟩
    (by decide) (by decide) (by rfl)

theorem cycle_ordering_witness :
    ((runCycle cbC7 [] "t" repoC7).2.filterMap sinkNumber) =
      repoC7.stores.map Prod.fst ∧
    (∀ number store, (number, store) ∈ repoC7.stores →
      ∃ d o a s rest,
        ((runCycle cbC7 [] "t" repoC7).2.filter
            (fun act => act.num == number)) =
          Action.sink number d o a s :: rest ∧
        ∀ act ∈ rest, sinkNumber act = none) :=
  cycle_ordering cbC7 [] "t" repoC7 (by decide)

end DownStoreMonitor
